import Mathlib

/-!
Shallow embedding of the pokupki-app grocery-list service (src/main.py,
src/models.py) in Lean 4.

The store is modelled as explicit lists of rows in insertion order, matching
how the SQLAlchemy session materialises them; the auto-increment Family id is
modelled by a nextFamilyId counter. ORM first-row lookups become List.find?,
row mutation becomes in-place replacement of the first matching element, and
an aborted transaction (HTTPException raised before commit, or an uncaught
uniqueness violation at commit) leaves the store unchanged, so every stateful
operation returns the pair of an Except result and the post-state. The random
invite-code generator uuid.uuid4().hex[:8] is nondeterministic, so the
generated code is passed in as an explicit argument.
-/

deriving instance DecidableEq for Except

/-- Row of the families table (models.py, class Family). -/
structure Family where
  id : Nat
  invite_code : String
deriving DecidableEq

/-- Row of the users table (models.py, class User). -/
structure User where
  telegram_id : Int
  username : Option String
  family_id : Nat
deriving DecidableEq

/-- Row of the items table (models.py, class Item). -/
structure Item where
  id : String
  text : String
  is_bought : Bool
  category : String
  family_id : Nat
deriving DecidableEq

/-- Whole database state: the three tables plus the auto-increment counter
backing the families primary key. -/
structure St where
  families : List Family
  users : List User
  items : List Item
  nextFamilyId : Nat
deriving DecidableEq

/-- Request body of POST /items (main.py, class ItemCreate): every field
required, and no family field exists, so the client cannot assert one. -/
structure ItemCreate where
  id : String
  text : String
  is_bought : Bool
  category : String
deriving DecidableEq

/-- Request body of PUT /items/item_id (main.py, class ItemUpdate): every
field optional with default None. -/
structure ItemUpdate where
  text : Option String := none
  is_bought : Option Bool := none
  category : Option String := none
deriving DecidableEq

/-- Error taxonomy of the HTTP handlers: the two 404 HTTPExceptions plus the
store-level uniqueness violation that commit raises uncaught. -/
inductive Err where
  | userNotFound
  | itemNotFound
  | conflict
deriving DecidableEq

/-- Localized replies sent by the bot start handler, one constructor per
message.answer call site in cmd_start. -/
inductive Reply where
  | joined
  | alreadyMember
  | welcomeJoined
  | invalidCode
  | welcome
deriving DecidableEq

/-- The first users row with the given telegram id:
session.execute(select(User).where(User.telegram_id == tid)).scalars().first().
-/
def findUser (st : St) (tid : Int) : Option User :=
  st.users.find? (fun u => u.telegram_id == tid)

/-- Replace the first element satisfying p by its image under f, leaving the
rest of the list alone: the effect of mutating the single ORM row returned by
scalars().first(). -/
def replaceFirst (p : α → Bool) (f : α → α) : List α → List α
  | [] => []
  | a :: as => if p a then f a :: as else a :: replaceFirst p f as

/-- Remove the first element satisfying p: the effect of session.delete on the
row returned by scalars().first(). -/
def eraseFirstP (p : α → Bool) : List α → List α
  | [] => []
  | a :: as => if p a then as else a :: eraseFirstP p as

/-- ensure_user_and_family (main.py lines 67-82). gen is the code produced by
uuid.uuid4().hex[:8]. If a user with this telegram id exists it is returned
with the store untouched; otherwise a new Family with invite code gen and a
new User pointing at it are inserted and committed. A gen that collides with
an existing invite_code violates the unique constraint at commit: the
exception is not caught, so the transaction aborts with the store unchanged,
modelled as Except.error. -/
def ensure_user_and_family (gen : String) (tid : Int) (uname : Option String)
    (st : St) : Except Unit User × St :=
  match findUser st tid with
  | some u => (Except.ok u, st)
  | none =>
    if st.families.any (fun f => f.invite_code == gen) then
      (Except.error (), st)
    else
      let fam : Family := { id := st.nextFamilyId, invite_code := gen }
      let newU : User := { telegram_id := tid, username := uname, family_id := fam.id }
      (Except.ok newU,
        { st with
            families := st.families ++ [fam]
            users := st.users ++ [newU]
            nextFamilyId := st.nextFamilyId + 1 })

/-- The marker token, as a character list. -/
def invitePat : List Char := "invite_".data

/-- Fuel-indexed core of Python str.replace with empty replacement: removes
leftmost non-overlapping occurrences of invitePat. Fuel at least the length of
the list makes the fuel case unreachable. -/
def stripAllAux : Nat → List Char → List Char
  | _, [] => []
  | 0, l => l
  | n + 1, c :: rest =>
    if invitePat.isPrefixOf (c :: rest) then
      stripAllAux n (List.drop invitePat.length (c :: rest))
    else
      c :: stripAllAux n rest

/-- Python s.replace("invite_", ""): removes every leftmost non-overlapping
occurrence of the marker, not only a leading one. -/
def stripAllInvite (s : List Char) : List Char :=
  stripAllAux s.length s

/-- The code cmd_start looks the Family up by, when the start argument is
present (main.py lines 96-100): if the argument starts with the marker the
whole argument goes through replace("invite_", ""); otherwise no code-based
lookup happens. The Python truthiness test on the empty string is subsumed:
an empty string never starts with the marker. -/
def inviteLookupCode (arg : String) : Option String :=
  if invitePat.isPrefixOf arg.data then
    some (String.mk (stripAllInvite arg.data))
  else
    none

/-- cmd_start (main.py lines 84-127). inviteArg is args[1] of the split
command text when present. gen is the invite code the fallback provisioning
would generate. Returns the reply sent and the resulting store. -/
def cmd_start (inviteArg : Option String) (gen : String) (tid : Int)
    (uname : Option String) (st : St) : Reply × St :=
  match inviteArg with
  | some arg =>
    match inviteLookupCode arg with
    | some code =>
      match st.families.find? (fun f => f.invite_code == code) with
      | some fam =>
        match findUser st tid with
        | some u =>
          if u.family_id != fam.id then
            (Reply.joined,
              { st with
                  users := replaceFirst (fun v => v.telegram_id == tid)
                    (fun v => { v with family_id := fam.id }) st.users })
          else
            (Reply.alreadyMember, st)
        | none =>
          (Reply.welcomeJoined,
            { st with
                users := st.users ++
                  [{ telegram_id := tid, username := uname, family_id := fam.id }] })
      | none =>
        (Reply.invalidCode, (ensure_user_and_family gen tid uname st).2)
    | none => (Reply.welcome, (ensure_user_and_family gen tid uname st).2)
  | none => (Reply.welcome, (ensure_user_and_family gen tid uname st).2)

/-- get_items (main.py lines 156-165): 404 when the caller is not provisioned,
otherwise all items of the caller's family. -/
def get_items (tid : Int) (st : St) : Except Err (List Item) :=
  match findUser st tid with
  | none => Except.error Err.userNotFound
  | some u => Except.ok (st.items.filter (fun it => it.family_id == u.family_id))

/-- create_item (main.py lines 167-183): 404 when the caller is not
provisioned; the inserted row copies id, text, is_bought and category from the
body and takes family_id from the caller. A duplicate id violates the items
primary key at commit, aborting the transaction uncaught. -/
def create_item (item : ItemCreate) (tid : Int) (st : St) : Except Err Item × St :=
  match findUser st tid with
  | none => (Except.error Err.userNotFound, st)
  | some u =>
    if st.items.any (fun it => it.id == item.id) then
      (Except.error Err.conflict, st)
    else
      let newItem : Item :=
        { id := item.id, text := item.text, is_bought := item.is_bought,
          category := item.category, family_id := u.family_id }
      (Except.ok newItem, { st with items := st.items ++ [newItem] })

/-- The ownership-scoped item lookup used by update and delete:
select(Item).where(Item.id == item_id, Item.family_id == user.family_id). -/
def itemMatch (iid : String) (fid : Nat) (it : Item) : Bool :=
  it.id == iid && it.family_id == fid

/-- The three guarded field assignments of update_item (main.py lines
197-201): a field is written only when the request supplied a non-None value
for it. -/
def applyUpdates (upd : ItemUpdate) (it : Item) : Item :=
  let it1 := match upd.text with
    | some t => { it with text := t }
    | none => it
  let it2 := match upd.is_bought with
    | some b => { it1 with is_bought := b }
    | none => it1
  match upd.category with
  | some c => { it2 with category := c }
  | none => it2

/-- update_item (main.py lines 185-205): 404 when the caller is not
provisioned, 404 when no item with this id exists in the caller's family,
otherwise the guarded assignments are applied to the found row and committed.
-/
def update_item (iid : String) (upd : ItemUpdate) (tid : Int) (st : St) :
    Except Err Item × St :=
  match findUser st tid with
  | none => (Except.error Err.userNotFound, st)
  | some u =>
    match st.items.find? (itemMatch iid u.family_id) with
    | none => (Except.error Err.itemNotFound, st)
    | some it =>
      (Except.ok (applyUpdates upd it),
        { st with items := replaceFirst (itemMatch iid u.family_id) (applyUpdates upd) st.items })

/-- delete_item (main.py lines 207-221): same ownership-scoped lookup as
update_item; on success the found row is removed. -/
def delete_item (iid : String) (tid : Int) (st : St) : Except Err Unit × St :=
  match findUser st tid with
  | none => (Except.error Err.userNotFound, st)
  | some u =>
    match st.items.find? (itemMatch iid u.family_id) with
    | none => (Except.error Err.itemNotFound, st)
    | some _ =>
      (Except.ok (), { st with items := eraseFirstP (itemMatch iid u.family_id) st.items })

/-- True when the marker token occurs somewhere in the character list. -/
def hasInviteOcc : List Char → Bool
  | [] => false
  | c :: rest => invitePat.isPrefixOf (c :: rest) || hasInviteOcc rest

/-- Concrete store with two families, one user and one item in each, used to
instantiate the universally quantified theorems below. -/
def stTwoFamilies : St :=
  { families := [{ id := 10, invite_code := "aaaa1111" }, { id := 20, invite_code := "bbbb2222" }]
    users := [{ telegram_id := 1, username := none, family_id := 10 },
              { telegram_id := 2, username := none, family_id := 20 }]
    items := [{ id := "i1", text := "Milk", is_bought := false, category := "dairy", family_id := 10 },
              { id := "i2", text := "Eggs", is_bought := false, category := "food", family_id := 20 }]
    nextFamilyId := 30 }

/-- The empty store, as right after table creation at startup. -/
def stEmpty : St := { families := [], users := [], items := [], nextFamilyId := 1 }

/-- Store in which some family already holds the invite code that the
generator is about to produce for a new user. -/
def stCollision : St :=
  { families := [{ id := 1, invite_code := "c0ffee11" }], users := [], items := [],
    nextFamilyId := 2 }

theorem find?_append_of_none {α : Type} (p : α → Bool) :
    ∀ (l1 l2 : List α), List.find? p l1 = none →
      List.find? p (l1 ++ l2) = List.find? p l2 := by
  intro l1 l2
  induction l1 with
  | nil => intro _; rfl
  | cons a as ih =>
    intro h
    cases hpa : p a with
    | true =>
      simp only [List.find?, hpa] at h
      exact absurd h (Option.some_ne_none a)
    | false =>
      simp only [List.find?, hpa] at h
      simp only [List.cons_append, List.find?, hpa]
      exact ih h

theorem find?_replaceFirst {α : Type} (p : α → Bool) (f : α → α)
    (hf : ∀ a, p a = true → p (f a) = true) :
    ∀ l : List α, List.find? p (replaceFirst p f l) = Option.map f (List.find? p l) := by
  intro l
  induction l with
  | nil => rfl
  | cons a as ih =>
    cases hpa : p a with
    | true => simp [replaceFirst, hpa, List.find?, hf a hpa]
    | false => simp [replaceFirst, hpa, List.find?, ih]

theorem replaceFirst_fix {α : Type} (p : α → Bool) (f : α → α)
    (hf : ∀ a, p a = true → f a = a) :
    ∀ l : List α, replaceFirst p f l = l := by
  intro l
  induction l with
  | nil => rfl
  | cons a as ih =>
    cases hpa : p a with
    | true => simp [replaceFirst, hpa, hf a hpa]
    | false => simp [replaceFirst, hpa, ih]

theorem isPrefixOf_append_self {α : Type} [BEq α] [LawfulBEq α] :
    ∀ (p l : List α), p.isPrefixOf (p ++ l) = true := by
  intro p l
  induction p with
  | nil => simp [List.isPrefixOf]
  | cons a as ih => simp [List.isPrefixOf, ih]

theorem stripAllAux_succ :
    ∀ (n : Nat) (l : List Char), l.length ≤ n →
      stripAllAux (n + 1) l = stripAllAux n l := by
  intro n
  induction n with
  | zero =>
    intro l hl
    have h0 : l = [] := List.eq_nil_of_length_eq_zero (Nat.le_zero.mp hl)
    subst h0
    rfl
  | succ n ih =>
    intro l hl
    match l with
    | [] => rfl
    | c :: rest =>
      have h7 : invitePat.length = 7 := rfl
      simp only [stripAllAux]
      by_cases h : invitePat.isPrefixOf (c :: rest) = true
      · simp only [h, if_true]
        apply ih
        simp only [List.length_drop, List.length_cons]
        simp only [List.length_cons] at hl
        omega
      · simp only [List.length_cons] at hl
        simp [h, ih rest (by omega)]

theorem stripAllAux_eq_of_le :
    ∀ (n : Nat) (l : List Char), l.length ≤ n →
      stripAllAux n l = stripAllInvite l := by
  have key : ∀ (k : Nat) (l : List Char), stripAllAux (l.length + k) l = stripAllInvite l := by
    intro k
    induction k with
    | zero => intro l; rfl
    | succ k ih =>
      intro l
      have h1 : l.length + (k + 1) = (l.length + k) + 1 := by omega
      rw [h1, stripAllAux_succ (l.length + k) l (by omega), ih l]
  intro n l hl
  obtain ⟨k, hk⟩ := Nat.le.dest hl
  rw [← hk]
  exact key k l

theorem stripAllInvite_of_pref :
    ∀ (l : List Char), invitePat.isPrefixOf l = true →
      stripAllInvite l = stripAllInvite (List.drop invitePat.length l) := by
  intro l h
  match l with
  | [] => simp [invitePat, List.isPrefixOf] at h
  | c :: rest =>
    have h7 : invitePat.length = 7 := rfl
    show stripAllAux (rest.length + 1) (c :: rest) = _
    simp only [stripAllAux, h, if_true]
    apply stripAllAux_eq_of_le
    simp only [List.length_drop, List.length_cons]
    omega

theorem stripAllInvite_append_pat (l : List Char) :
    stripAllInvite (invitePat ++ l) = stripAllInvite l := by
  rw [stripAllInvite_of_pref (invitePat ++ l) (isPrefixOf_append_self invitePat l),
    List.drop_left]

theorem stripAllInvite_of_no_occ :
    ∀ (l : List Char), hasInviteOcc l = false → stripAllInvite l = l := by
  intro l h
  induction l with
  | nil => rfl
  | cons c rest ih =>
    simp only [hasInviteOcc, Bool.or_eq_false_iff] at h
    show stripAllAux (rest.length + 1) (c :: rest) = _
    simp only [stripAllAux, h.1, if_false, Bool.false_eq_true]
    rw [stripAllAux_eq_of_le rest.length rest (Nat.le_refl _), ih h.2]

/-- C1: for every provisioned caller and every store state, get_items returns
exactly the items whose family_id equals the caller's family_id; quantifying
over all stores covers any interleaving of creates across distinct families.
-/
theorem get_items_scoped (st : St) (tid : Int) (u : User)
    (hu : findUser st tid = some u) :
    ∃ res, get_items tid st = Except.ok res ∧
      ∀ it : Item, it ∈ res ↔ (it ∈ st.items ∧ it.family_id = u.family_id) := by
  refine ⟨st.items.filter (fun it => it.family_id == u.family_id), ?_, ?_⟩
  · simp [get_items, hu]
  · intro it
    simp [List.mem_filter]

/-- Witness for C1 on the concrete two-family store. -/
theorem get_items_scoped_witness :
    ∃ res, get_items 1 stTwoFamilies = Except.ok res ∧
      ∀ it : Item, it ∈ res ↔ (it ∈ stTwoFamilies.items ∧ it.family_id = 10) :=
  get_items_scoped stTwoFamilies 1
    { telegram_id := 1, username := none, family_id := 10 } (by decide)

/-- C2: resolve of an existing user returns it with the store unchanged;
first contact with a fresh generated code inserts exactly one Family and one
User referencing it, and a second resolve for the same id returns that user
and inserts nothing. -/
theorem ensure_user_and_family_spec (st : St) (gen : String) (tid : Int)
    (un : Option String) :
    (∀ u, findUser st tid = some u →
      ensure_user_and_family gen tid un st = (Except.ok u, st)) ∧
    (findUser st tid = none → (∀ f ∈ st.families, f.invite_code ≠ gen) →
      ∃ (fam : Family) (newU : User) (st' : St),
        ensure_user_and_family gen tid un st = (Except.ok newU, st') ∧
        st'.families = st.families ++ [fam] ∧
        st'.users = st.users ++ [newU] ∧
        st'.items = st.items ∧
        newU.family_id = fam.id ∧
        fam.invite_code = gen ∧
        (∀ gen2, ensure_user_and_family gen2 tid un st' = (Except.ok newU, st'))) := by
  constructor
  · intro u hu
    simp [ensure_user_and_family, hu]
  · intro hu hcode
    have hany : st.families.any (fun f => f.invite_code == gen) = false := by
      simp only [List.any_eq_false]
      intro f hf
      simp [hcode f hf]
    refine ⟨{ id := st.nextFamilyId, invite_code := gen },
      { telegram_id := tid, username := un, family_id := st.nextFamilyId },
      { st with
          families := st.families ++ [{ id := st.nextFamilyId, invite_code := gen }]
          users := st.users ++ [{ telegram_id := tid, username := un, family_id := st.nextFamilyId }]
          nextFamilyId := st.nextFamilyId + 1 },
      ?_, rfl, rfl, rfl, rfl, rfl, ?_⟩
    · simp [ensure_user_and_family, hu, hany]
    · intro gen2
      have hfind : List.find? (fun v => v.telegram_id == tid)
          (st.users ++ [{ telegram_id := tid, username := un, family_id := st.nextFamilyId }]) =
          some { telegram_id := tid, username := un, family_id := st.nextFamilyId } := by
        rw [find?_append_of_none _ st.users _ hu]
        simp [List.find?]
      simp [ensure_user_and_family, findUser, hfind]

/-- Witness for C2 on the empty store. -/
theorem ensure_user_and_family_spec_witness :
    ∃ (fam : Family) (newU : User) (st' : St),
      ensure_user_and_family "ab12cd34" 7 none stEmpty = (Except.ok newU, st') ∧
      st'.families = stEmpty.families ++ [fam] ∧
      st'.users = stEmpty.users ++ [newU] ∧
      st'.items = stEmpty.items ∧
      newU.family_id = fam.id ∧
      fam.invite_code = "ab12cd34" ∧
      (∀ gen2, ensure_user_and_family gen2 7 none st' = (Except.ok newU, st')) :=
  (ensure_user_and_family_spec stEmpty "ab12cd34" 7 none).2 (by decide) (by decide)

/-- C6: create_item inserts a row whose family_id is the caller's family and
whose other fields are copied from the request body; the request carries no
family field, so nothing the client asserts can influence the scope. -/
theorem create_item_forces_family (st : St) (tid : Int) (u : User) (ic : ItemCreate)
    (hu : findUser st tid = some u)
    (hid : ∀ it ∈ st.items, it.id ≠ ic.id) :
    ∃ newItem : Item,
      create_item ic tid st = (Except.ok newItem, { st with items := st.items ++ [newItem] }) ∧
      newItem.family_id = u.family_id ∧ newItem.id = ic.id ∧ newItem.text = ic.text ∧
      newItem.is_bought = ic.is_bought ∧ newItem.category = ic.category := by
  have hany : st.items.any (fun it => it.id == ic.id) = false := by
    simp only [List.any_eq_false]
    intro it hit
    simp [hid it hit]
  exact ⟨{ id := ic.id, text := ic.text, is_bought := ic.is_bought,
           category := ic.category, family_id := u.family_id },
    by simp [create_item, hu, hany], rfl, rfl, rfl, rfl, rfl⟩

/-- Witness for C6: caller 2 creates an item, which lands in family 20. -/
theorem create_item_forces_family_witness :
    ∃ newItem : Item,
      create_item { id := "i9", text := "Tea", is_bought := false, category := "drinks" }
          2 stTwoFamilies =
        (Except.ok newItem, { stTwoFamilies with items := stTwoFamilies.items ++ [newItem] }) ∧
      newItem.family_id = 20 ∧ newItem.id = "i9" ∧ newItem.text = "Tea" ∧
      newItem.is_bought = false ∧ newItem.category = "drinks" :=
  create_item_forces_family stTwoFamilies 2
    { telegram_id := 2, username := none, family_id := 20 }
    { id := "i9", text := "Tea", is_bought := false, category := "drinks" }
    (by decide) (by decide)

/-- C9: provisioning a new user with a generated invite code that collides
with an existing family does not retry; the uniqueness violation raised by
commit propagates to the caller and no rows are written. -/
theorem ensure_collision_exposed :
    findUser stCollision 42 = none ∧
    ensure_user_and_family "c0ffee11" 42 none stCollision =
      (Except.error (), stCollision) := by
  constructor
  · decide
  · decide

/-- C10: for a found item, update_item applies exactly the guarded field
assignments: every resulting field is either the prior value or a concretely
supplied non-null value, and a null (None) field is treated like an absent
one. -/
theorem update_item_null_fields (st : St) (tid : Int) (u : User) (iid : String)
    (upd : ItemUpdate) (it : Item)
    (hu : findUser st tid = some u)
    (hit : st.items.find? (itemMatch iid u.family_id) = some it) :
    (update_item iid upd tid st).1 = Except.ok (applyUpdates upd it) ∧
    ((applyUpdates upd it).text = it.text ∨ upd.text = some ((applyUpdates upd it).text)) ∧
    ((applyUpdates upd it).is_bought = it.is_bought ∨
      upd.is_bought = some ((applyUpdates upd it).is_bought)) ∧
    ((applyUpdates upd it).category = it.category ∨
      upd.category = some ((applyUpdates upd it).category)) ∧
    (upd.text = none → (applyUpdates upd it).text = it.text) ∧
    (upd.is_bought = none → (applyUpdates upd it).is_bought = it.is_bought) ∧
    (upd.category = none → (applyUpdates upd it).category = it.category) := by
  refine ⟨by simp [update_item, hu, hit], ?_, ?_, ?_, ?_, ?_, ?_⟩
  all_goals
    cases ht : upd.text <;> cases hb : upd.is_bought <;> cases hc : upd.category <;>
      simp [applyUpdates, ht, hb, hc]

/-- Witness for C10: an update supplying only text. -/
theorem update_item_null_fields_witness :
    (update_item "i1" { text := some "Bread" } 1 stTwoFamilies).1 =
      Except.ok (applyUpdates { text := some "Bread" }
        { id := "i1", text := "Milk", is_bought := false, category := "dairy", family_id := 10 }) ∧
    ((applyUpdates { text := some "Bread" }
        { id := "i1", text := "Milk", is_bought := false, category := "dairy", family_id := 10 }).text = "Milk" ∨
      (some "Bread" : Option String) = some ((applyUpdates { text := some "Bread" }
        { id := "i1", text := "Milk", is_bought := false, category := "dairy", family_id := 10 }).text)) ∧
    ((applyUpdates { text := some "Bread" }
        { id := "i1", text := "Milk", is_bought := false, category := "dairy", family_id := 10 }).is_bought = false ∨
      (none : Option Bool) = some ((applyUpdates { text := some "Bread" }
        { id := "i1", text := "Milk", is_bought := false, category := "dairy", family_id := 10 }).is_bought)) ∧
    ((applyUpdates { text := some "Bread" }
        { id := "i1", text := "Milk", is_bought := false, category := "dairy", family_id := 10 }).category = "dairy" ∨
      (none : Option String) = some ((applyUpdates { text := some "Bread" }
        { id := "i1", text := "Milk", is_bought := false, category := "dairy", family_id := 10 }).category)) ∧
    ((some "Bread" : Option String) = none → (applyUpdates { text := some "Bread" }
        { id := "i1", text := "Milk", is_bought := false, category := "dairy", family_id := 10 }).text = "Milk") ∧
    ((none : Option Bool) = none → (applyUpdates { text := some "Bread" }
        { id := "i1", text := "Milk", is_bought := false, category := "dairy", family_id := 10 }).is_bought = false) ∧
    ((none : Option String) = none → (applyUpdates { text := some "Bread" }
        { id := "i1", text := "Milk", is_bought := false, category := "dairy", family_id := 10 }).category = "dairy") :=
  update_item_null_fields stTwoFamilies 1
    { telegram_id := 1, username := none, family_id := 10 } "i1" { text := some "Bread" }
    { id := "i1", text := "Milk", is_bought := false, category := "dairy", family_id := 10 }
    (by decide) (by decide)

theorem replaceFirst_length {α : Type} (p : α → Bool) (f : α → α) :
    ∀ l : List α, (replaceFirst p f l).length = l.length := by
  intro l
  induction l with
  | nil => rfl
  | cons a as ih =>
    cases hpa : p a with
    | true => simp [replaceFirst, hpa]
    | false => simp [replaceFirst, hpa, ih]

/-- C3: given a provisioned caller, update_item and delete_item answer the
not-found error exactly when no item with the given id exists in the caller's
family; an item of another family is indistinguishable from true absence, and
on that error path the store, hence the foreign row, is unchanged. -/
theorem update_delete_not_found (st : St) (tid : Int) (u : User) (iid : String)
    (upd : ItemUpdate)
    (hu : findUser st tid = some u) :
    ((update_item iid upd tid st).1 = Except.error Err.itemNotFound ↔
      ∀ it ∈ st.items, ¬(it.id = iid ∧ it.family_id = u.family_id)) ∧
    ((update_item iid upd tid st).1 = Except.error Err.itemNotFound →
      (update_item iid upd tid st).2 = st) ∧
    ((delete_item iid tid st).1 = Except.error Err.itemNotFound ↔
      ∀ it ∈ st.items, ¬(it.id = iid ∧ it.family_id = u.family_id)) ∧
    ((delete_item iid tid st).1 = Except.error Err.itemNotFound →
      (delete_item iid tid st).2 = st) := by
  have hchar : st.items.find? (itemMatch iid u.family_id) = none ↔
      ∀ it ∈ st.items, ¬(it.id = iid ∧ it.family_id = u.family_id) := by
    rw [List.find?_eq_none]
    constructor
    · intro h it hit
      have := h it hit
      simp [itemMatch] at this
      intro hcon
      exact absurd (this hcon.1) (fun h2 => h2 hcon.2)
    · intro h it hit
      have := h it hit
      simp [itemMatch]
      intro h1 h2
      exact this ⟨h1, h2⟩
  cases hfind : st.items.find? (itemMatch iid u.family_id) with
  | none =>
    have hr := hchar.mp hfind
    have hupd : (update_item iid upd tid st).1 = Except.error Err.itemNotFound := by
      simp [update_item, hu, hfind]
    have hdel : (delete_item iid tid st).1 = Except.error Err.itemNotFound := by
      simp [delete_item, hu, hfind]
    refine ⟨iff_of_true hupd hr, fun _ => ?_, iff_of_true hdel hr, fun _ => ?_⟩
    · simp [update_item, hu, hfind]
    · simp [delete_item, hu, hfind]
  | some it =>
    have hmem : it ∈ st.items := List.mem_of_find?_eq_some hfind
    have hmatch : itemMatch iid u.family_id it = true := List.find?_some hfind
    have hrhs : ¬(∀ x ∈ st.items, ¬(x.id = iid ∧ x.family_id = u.family_id)) := by
      intro h
      have hx := h it hmem
      simp [itemMatch] at hmatch
      exact hx ⟨hmatch.1, hmatch.2⟩
    have hupd : (update_item iid upd tid st).1 ≠ Except.error Err.itemNotFound := by
      simp [update_item, hu, hfind]
    have hdel : (delete_item iid tid st).1 ≠ Except.error Err.itemNotFound := by
      simp [delete_item, hu, hfind]
    exact ⟨iff_of_false hupd hrhs, fun h => absurd h hupd,
      iff_of_false hdel hrhs, fun h => absurd h hdel⟩

/-- Witness for C3: caller 1 targets item i2, which exists but in family 20.
-/
theorem update_delete_not_found_witness :
    ((update_item "i2" { } 1 stTwoFamilies).1 = Except.error Err.itemNotFound ↔
      ∀ it ∈ stTwoFamilies.items, ¬(it.id = "i2" ∧ it.family_id = 10)) ∧
    ((update_item "i2" { } 1 stTwoFamilies).1 = Except.error Err.itemNotFound →
      (update_item "i2" { } 1 stTwoFamilies).2 = stTwoFamilies) ∧
    ((delete_item "i2" 1 stTwoFamilies).1 = Except.error Err.itemNotFound ↔
      ∀ it ∈ stTwoFamilies.items, ¬(it.id = "i2" ∧ it.family_id = 10)) ∧
    ((delete_item "i2" 1 stTwoFamilies).1 = Except.error Err.itemNotFound →
      (delete_item "i2" 1 stTwoFamilies).2 = stTwoFamilies) :=
  update_delete_not_found stTwoFamilies 1
    { telegram_id := 1, username := none, family_id := 10 } "i2" { } (by decide)

/-- C4: on an item of the caller's family, update_item applies exactly the
fields present in the request, leaves absent fields at their prior values,
and with the empty partial body returns the item and the store unchanged. -/
theorem update_item_partial (st : St) (tid : Int) (u : User) (iid : String)
    (upd : ItemUpdate) (it : Item)
    (hu : findUser st tid = some u)
    (hit : st.items.find? (itemMatch iid u.family_id) = some it) :
    update_item iid upd tid st =
      (Except.ok (applyUpdates upd it),
        { st with items := replaceFirst (itemMatch iid u.family_id) (applyUpdates upd) st.items }) ∧
    (upd.text = none → (applyUpdates upd it).text = it.text) ∧
    (upd.is_bought = none → (applyUpdates upd it).is_bought = it.is_bought) ∧
    (upd.category = none → (applyUpdates upd it).category = it.category) ∧
    (upd.text = some ((applyUpdates upd it).text) ∨ (applyUpdates upd it).text = it.text) ∧
    (upd = { text := none, is_bought := none, category := none } →
      update_item iid upd tid st = (Except.ok it, st)) := by
  refine ⟨by simp [update_item, hu, hit], ?_, ?_, ?_, ?_, ?_⟩
  · intro h
    cases hb : upd.is_bought <;> cases hc : upd.category <;> simp [applyUpdates, h, hb, hc]
  · intro h
    cases ht : upd.text <;> cases hc : upd.category <;> simp [applyUpdates, h, ht, hc]
  · intro h
    cases ht : upd.text <;> cases hb : upd.is_bought <;> simp [applyUpdates, h, ht, hb]
  · cases ht : upd.text <;> cases hb : upd.is_bought <;> cases hc : upd.category <;>
      simp [applyUpdates, ht, hb, hc]
  · intro h
    subst h
    have hfix : replaceFirst (itemMatch iid u.family_id)
        (applyUpdates { text := none, is_bought := none, category := none }) st.items
        = st.items :=
      replaceFirst_fix _ _ (fun a _ => rfl) st.items
    simp [update_item, hu, hit, hfix]
    rfl

/-- Witness for C4: an empty update of item i1 by caller 1 changes nothing. -/
theorem update_item_partial_witness :
    update_item "i1" { } 1 stTwoFamilies =
      (Except.ok (applyUpdates { }
        { id := "i1", text := "Milk", is_bought := false, category := "dairy", family_id := 10 }),
        { stTwoFamilies with items := replaceFirst (itemMatch "i1" 10) (applyUpdates { }) stTwoFamilies.items }) ∧
    ((none : Option String) = none → (applyUpdates { }
      { id := "i1", text := "Milk", is_bought := false, category := "dairy", family_id := 10 }).text = "Milk") ∧
    ((none : Option Bool) = none → (applyUpdates { }
      { id := "i1", text := "Milk", is_bought := false, category := "dairy", family_id := 10 }).is_bought = false) ∧
    ((none : Option String) = none → (applyUpdates { }
      { id := "i1", text := "Milk", is_bought := false, category := "dairy", family_id := 10 }).category = "dairy") ∧
    ((none : Option String) = some ((applyUpdates { }
      { id := "i1", text := "Milk", is_bought := false, category := "dairy", family_id := 10 }).text) ∨
      (applyUpdates { }
      { id := "i1", text := "Milk", is_bought := false, category := "dairy", family_id := 10 }).text = "Milk") ∧
    (({ } : ItemUpdate) = { text := none, is_bought := none, category := none } →
      update_item "i1" { } 1 stTwoFamilies =
        (Except.ok { id := "i1", text := "Milk", is_bought := false, category := "dairy", family_id := 10 },
          stTwoFamilies)) :=
  update_item_partial stTwoFamilies 1
    { telegram_id := 1, username := none, family_id := 10 } "i1" { }
    { id := "i1", text := "Milk", is_bought := false, category := "dairy", family_id := 10 }
    (by decide) (by decide)

/-- C5: with a valid invite code, a join by an existing user leaves the
families and items tables alone and never changes the number of user rows;
after the first join the user is in the code's family, a join by a user
already in that family answers already-a-member with the store unchanged, and
a repeated join with the same code answers already-a-member and mutates
nothing. -/
theorem cmd_start_join_idempotent (st : St) (arg gen gen2 code : String)
    (tid : Int) (un : Option String) (fam : Family) (u : User)
    (harg : inviteLookupCode arg = some code)
    (hfam : st.families.find? (fun f => f.invite_code == code) = some fam)
    (hu : findUser st tid = some u) :
    ∃ st' : St,
      (cmd_start (some arg) gen tid un st).2 = st' ∧
      st'.families = st.families ∧
      st'.items = st.items ∧
      st'.users.length = st.users.length ∧
      findUser st' tid = some { u with family_id := fam.id } ∧
      (u.family_id = fam.id → cmd_start (some arg) gen tid un st = (Reply.alreadyMember, st)) ∧
      cmd_start (some arg) gen2 tid un st' = (Reply.alreadyMember, st') := by
  by_cases heq : u.family_id = fam.id
  · have hcall : cmd_start (some arg) gen tid un st = (Reply.alreadyMember, st) := by
      simp [cmd_start, harg, hfam, hu, heq]
    have huser : some u = some { u with family_id := fam.id } := by
      obtain ⟨a, b, c⟩ := u
      simp only at heq
      rw [heq]
    refine ⟨st, by rw [hcall], rfl, rfl, rfl, ?_, fun _ => hcall, ?_⟩
    · rw [hu]
      exact huser
    · simp [cmd_start, harg, hfam, hu, heq]
  · have hcall : cmd_start (some arg) gen tid un st =
        (Reply.joined,
          { st with users := replaceFirst (fun v => v.telegram_id == tid) (fun v => { v with family_id := fam.id }) st.users }) := by
      simp [cmd_start, harg, hfam, hu, bne_iff_ne, heq]
    have hu' : List.find? (fun v => v.telegram_id == tid) st.users = some u := hu
    have hfind : List.find? (fun v => v.telegram_id == tid)
        (replaceFirst (fun v => v.telegram_id == tid) (fun v => { v with family_id := fam.id }) st.users)
        = some { u with family_id := fam.id } := by
      rw [find?_replaceFirst (fun v => v.telegram_id == tid)
        (fun v => { v with family_id := fam.id }) (fun a h => h) st.users, hu']
      rfl
    have hlen := replaceFirst_length (fun v => v.telegram_id == tid)
      (fun v => { v with family_id := fam.id }) st.users
    have hcall2 : cmd_start (some arg) gen2 tid un
        { st with users := replaceFirst (fun v => v.telegram_id == tid) (fun v => { v with family_id := fam.id }) st.users }
        = (Reply.alreadyMember,
          { st with users := replaceFirst (fun v => v.telegram_id == tid) (fun v => { v with family_id := fam.id }) st.users }) := by
      simp [cmd_start, harg, hfam, findUser, hfind]
    exact ⟨{ st with users := replaceFirst (fun v => v.telegram_id == tid) (fun v => { v with family_id := fam.id }) st.users },
      by rw [hcall], rfl, rfl, hlen, hfind, fun h => absurd h heq, hcall2⟩

/-- Witness for C5: user 1 (family 10) joins family 20 by its code, then
repeats the join. -/
theorem cmd_start_join_idempotent_witness :
    ∃ st' : St,
      (cmd_start (some "invite_bbbb2222") "x1x1x1x1" 1 none stTwoFamilies).2 = st' ∧
      st'.families = stTwoFamilies.families ∧
      st'.items = stTwoFamilies.items ∧
      st'.users.length = stTwoFamilies.users.length ∧
      findUser st' 1 = some { telegram_id := 1, username := none, family_id := 20 } ∧
      ((10 : Nat) = 20 →
        cmd_start (some "invite_bbbb2222") "x1x1x1x1" 1 none stTwoFamilies =
          (Reply.alreadyMember, stTwoFamilies)) ∧
      cmd_start (some "invite_bbbb2222") "x2x2x2x2" 1 none st' = (Reply.alreadyMember, st') :=
  cmd_start_join_idempotent stTwoFamilies "invite_bbbb2222" "x1x1x1x1" "x2x2x2x2"
    "bbbb2222" 1 none { id := 20, invite_code := "bbbb2222" }
    { telegram_id := 1, username := none, family_id := 10 }
    (by decide) (by decide) (by decide)

/-- C7: a join with a code matching no family answers invalid-code and falls
back to default provisioning: every pre-existing family, user and item row is
preserved (the tables only grow at the end), the store is exactly the
fallback's store, an already provisioned caller sees no change at all, and a
new family plus user appear only when the caller had none. -/
theorem cmd_start_invalid_code (st : St) (arg code gen : String) (tid : Int)
    (un : Option String)
    (harg : inviteLookupCode arg = some code)
    (hfam : st.families.find? (fun f => f.invite_code == code) = none) :
    ∃ (ef : List Family) (eu : List User),
      (cmd_start (some arg) gen tid un st).1 = Reply.invalidCode ∧
      (cmd_start (some arg) gen tid un st).2 = (ensure_user_and_family gen tid un st).2 ∧
      (cmd_start (some arg) gen tid un st).2.families = st.families ++ ef ∧
      (cmd_start (some arg) gen tid un st).2.users = st.users ++ eu ∧
      (cmd_start (some arg) gen tid un st).2.items = st.items ∧
      (∀ u, findUser st tid = some u → (cmd_start (some arg) gen tid un st).2 = st) ∧
      (findUser st tid = none → (∀ f ∈ st.families, f.invite_code ≠ gen) →
        ∃ (fam : Family) (newU : User), ef = [fam] ∧ eu = [newU] ∧
          newU.family_id = fam.id ∧ fam.invite_code = gen) := by
  have hc : cmd_start (some arg) gen tid un st =
      (Reply.invalidCode, (ensure_user_and_family gen tid un st).2) := by
    simp [cmd_start, harg, hfam]
  cases hu : findUser st tid with
  | some u =>
    have he : ensure_user_and_family gen tid un st = (Except.ok u, st) := by
      simp [ensure_user_and_family, hu]
    refine ⟨[], [], by rw [hc], by rw [hc], ?_, ?_, ?_, ?_, ?_⟩
    · rw [hc, he]
      simp
    · rw [hc, he]
      simp
    · rw [hc, he]
    · intro v _
      rw [hc, he]
    · intro hnone
      exact absurd hnone (by simp)
  | none =>
    cases hcol : st.families.any (fun f => f.invite_code == gen) with
    | true =>
      have he : ensure_user_and_family gen tid un st = (Except.error (), st) := by
        simp [ensure_user_and_family, hu, hcol]
      refine ⟨[], [], by rw [hc], by rw [hc], ?_, ?_, ?_, ?_, ?_⟩
      · rw [hc, he]
        simp
      · rw [hc, he]
        simp
      · rw [hc, he]
      · intro v hv
        exact absurd hv (by simp)
      · intro _ hfresh
        exfalso
        obtain ⟨f, hf, hbeq⟩ := List.any_eq_true.mp hcol
        exact hfresh f hf (by simpa using hbeq)
    | false =>
      have he : ensure_user_and_family gen tid un st =
          (Except.ok { telegram_id := tid, username := un, family_id := st.nextFamilyId },
            { st with
                families := st.families ++ [{ id := st.nextFamilyId, invite_code := gen }]
                users := st.users ++ [{ telegram_id := tid, username := un, family_id := st.nextFamilyId }]
                nextFamilyId := st.nextFamilyId + 1 }) := by
        simp [ensure_user_and_family, hu, hcol]
      refine ⟨[{ id := st.nextFamilyId, invite_code := gen }],
        [{ telegram_id := tid, username := un, family_id := st.nextFamilyId }],
        by rw [hc], by rw [hc], ?_, ?_, ?_, ?_, ?_⟩
      · rw [hc, he]
      · rw [hc, he]
      · rw [hc, he]
      · intro v hv
        exact absurd hv (by simp)
      · intro _ _
        exact ⟨{ id := st.nextFamilyId, invite_code := gen },
          { telegram_id := tid, username := un, family_id := st.nextFamilyId },
          rfl, rfl, rfl, rfl⟩

/-- Witness for C7: provisioned user 1 joins with an unknown code; the store
is untouched. -/
theorem cmd_start_invalid_code_witness :
    ∃ (ef : List Family) (eu : List User),
      (cmd_start (some "invite_zzzz9999") "ffff0000" 1 none stTwoFamilies).1 = Reply.invalidCode ∧
      (cmd_start (some "invite_zzzz9999") "ffff0000" 1 none stTwoFamilies).2 =
        (ensure_user_and_family "ffff0000" 1 none stTwoFamilies).2 ∧
      (cmd_start (some "invite_zzzz9999") "ffff0000" 1 none stTwoFamilies).2.families =
        stTwoFamilies.families ++ ef ∧
      (cmd_start (some "invite_zzzz9999") "ffff0000" 1 none stTwoFamilies).2.users =
        stTwoFamilies.users ++ eu ∧
      (cmd_start (some "invite_zzzz9999") "ffff0000" 1 none stTwoFamilies).2.items =
        stTwoFamilies.items ∧
      (∀ u, findUser stTwoFamilies 1 = some u →
        (cmd_start (some "invite_zzzz9999") "ffff0000" 1 none stTwoFamilies).2 = stTwoFamilies) ∧
      (findUser stTwoFamilies 1 = none →
        (∀ f ∈ stTwoFamilies.families, f.invite_code ≠ "ffff0000") →
        ∃ (fam : Family) (newU : User), ef = [fam] ∧ eu = [newU] ∧
          newU.family_id = fam.id ∧ fam.invite_code = "ffff0000") :=
  cmd_start_invalid_code stTwoFamilies "invite_zzzz9999" "zzzz9999" "ffff0000" 1 none
    (by decide) (by decide)

/-- C8 counterexample: the start handler strips every occurrence of the
marker, not only the leading one. For the argument invite_invite_ab, whose
code part is invite_ab, the lookup code is ab, not invite_ab. -/
theorem invite_marker_strip_counterexample :
    inviteLookupCode ("invite_" ++ "invite_ab") = some "ab" ∧
    ("ab" : String) ≠ "invite_ab" := by
  exact ⟨by decide, by decide⟩

/-- C8 amended: the lookup code is the argument with every leftmost
non-overlapping occurrence of the marker removed; whenever the code part
contains no occurrence of the marker - in particular for every code the
resolver ever generates, which is eight hex characters - exactly the marker
prefix is stripped. -/
theorem invite_marker_strip_amended (c : String) (h : hasInviteOcc c.data = false) :
    inviteLookupCode ("invite_" ++ c) = some c ∧
    (∀ arg : String, invitePat.isPrefixOf arg.data = true →
      inviteLookupCode arg = some (String.mk (stripAllInvite arg.data))) := by
  constructor
  · have hdata : ("invite_" ++ c).data = invitePat ++ c.data := String.data_append "invite_" c
    unfold inviteLookupCode
    simp only [hdata, isPrefixOf_append_self, if_true]
    rw [stripAllInvite_append_pat, stripAllInvite_of_no_occ c.data h]
  · intro arg harg
    simp [inviteLookupCode, harg]

/-- Witness for C8 amended at the marker-free code ab9. -/
theorem invite_marker_strip_amended_witness :
    hasInviteOcc ("ab9" : String).data = false ∧
    (inviteLookupCode ("invite_" ++ "ab9") = some "ab9" ∧
      (∀ arg : String, invitePat.isPrefixOf arg.data = true →
        inviteLookupCode arg = some (String.mk (stripAllInvite arg.data)))) :=
  ⟨by decide, invite_marker_strip_amended "ab9" (by decide)⟩
